import Mathlib

/-!
Verification development for the Reflow OCR repository.

The repository ships an Electron/React frontend whose renderer talks to a
FastAPI backend over HTTP.  The frontend sources present in the repository
(`types.ts`, `api.ts`, `App.tsx`) are embedded below as executable Lean
definitions; the backend core (session store, recognition pipeline,
document-model validation, archive format) is not part of the available
sources and is modelled from the specification where a claim needs it.
-/

namespace ReflowOCR

/-! ## Frontend data model (transliterated from the renderer type declarations) -/

/-- Lifecycle status of a session, from `SessionStatus` in `types.ts`. -/
inductive SessionStatus where
  | draft
  | processing
  | ready
  | error
  deriving DecidableEq, Repr

/-- A bounding box `[x, y, w, h]` in page-pixel coordinates, as carried by the
`bbox` fields of `TextSpan` and `DocumentBlock`.  Numbers are modelled as
rationals. -/
structure BBox where
  x : Rat
  y : Rat
  w : Rat
  h : Rat
  deriving DecidableEq, Repr

/-- `TextSpan` from `types.ts`: recognized text with a confidence score and a
bounding box. -/
structure TextSpan where
  text : String
  confidence : Rat
  bbox : BBox
  deriving DecidableEq, Repr

/-- `DocumentBlock` from `types.ts`. -/
structure DocumentBlock where
  id : String
  type : String
  bbox : BBox
  spans : List TextSpan
  deriving DecidableEq, Repr

/-- `DocumentPage` from `types.ts`. -/
structure DocumentPage where
  index : Nat
  width : Rat
  height : Rat
  blocks : List DocumentBlock
  deriving DecidableEq, Repr

/-- `Document` from `types.ts`: the recognition output. -/
structure Document where
  created_at : String
  language_hint : String
  pages : List DocumentPage
  deriving DecidableEq, Repr

/-- `SessionPage` from `types.ts`. -/
structure SessionPage where
  id : String
  index : Nat
  filename : String
  original_name : String
  source_type : String
  meta_width : Option Rat
  meta_height : Option Rat
  deriving DecidableEq, Repr

/-- `SessionDetail` from `types.ts` (the summary fields inlined). -/
structure SessionDetail where
  id : String
  name : String
  description : Option String
  created_at : String
  updated_at : String
  page_count : Nat
  status : SessionStatus
  autosave_enabled : Bool
  pages : List SessionPage
  document : Option Document
  last_recognized_at : Option String
  last_error : Option String
  deriving DecidableEq, Repr

/-- Decidable equality of fallible results, used to evaluate the embedded
client operations on concrete inputs. -/
instance {e a : Type} [DecidableEq e] [DecidableEq a] : DecidableEq (Except e a) :=
  fun x y =>
    match x, y with
    | Except.ok v, Except.ok w =>
        if h : v = w then isTrue (by rw [h]) else isFalse (by simp [h])
    | Except.error v, Except.error w =>
        if h : v = w then isTrue (by rw [h]) else isFalse (by simp [h])
    | Except.ok _, Except.error _ => isFalse (by simp)
    | Except.error _, Except.ok _ => isFalse (by simp)

/-! ## The HTTP client (`api.ts`) -/

/-- The part of an HTTP response the client inspects: the `ok` flag, the
numeric status and the text body (for a successful JSON route the body stands
for the parsed payload). -/
structure HttpResponse where
  ok : Bool
  status : Nat
  body : String
  deriving DecidableEq, Repr

/-- The `request` helper of `api.ts`: a non-ok response raises an error whose
message is the response text, or the string `HTTP <status>` when that text is
empty (JavaScript `message || ...` treats the empty string as falsy); a 204
yields no payload; otherwise the body is the result. -/
def request (resp : HttpResponse) : Except String (Option String) :=
  if !resp.ok then
    Except.error (if resp.body = "" then "HTTP " ++ toString resp.status else resp.body)
  else if resp.status = 204 then
    Except.ok none
  else
    Except.ok (some resp.body)

/-- The direct fetch path used by `ApiClient.uploadPages` and
`ApiClient.exportDocument`, which bypass the `request` helper: a non-ok
response throws with the response text verbatim as the error message — no
`HTTP <status>` fallback — and otherwise the body is the result. -/
def directFetch (resp : HttpResponse) : Except String String :=
  if !resp.ok then
    Except.error resp.body
  else
    Except.ok resp.body

/-- The static shape of the payload a client operation is declared to yield:
`SessionSummary[]`, `SessionDetail`, the bare object holding a `taskId`, the
binary export artifact, or a server-push event stream. -/
inductive ResponseShape where
  | summaryList
  | sessionDetail
  | taskIdObject
  | binaryArtifact
  | eventStream
  deriving DecidableEq, Repr

/-- Top-level JSON field names of an object-shaped response declaration.  The
recognize route is declared in `api.ts` as yielding the single-field object
written there as a braced `taskId : string` annotation on `request`. -/
def responseTopLevelFields : ResponseShape → List String
  | ResponseShape.taskIdObject => ["taskId"]
  | _ => []

/-- One operation of the client surface in `api.ts`: its export name, the HTTP
method it sends, the path it addresses (as segments, from the session id), and
its declared response shape. -/
structure ClientOp where
  opName : String
  method : String
  pathSegments : String → List String
  response : ResponseShape

/-- `ApiClient.listSessions`. -/
def listSessionsOp : ClientOp :=
  ⟨"listSessions", "GET", fun _ => ["sessions"], ResponseShape.summaryList⟩

/-- `ApiClient.createSession`. -/
def createSessionOp : ClientOp :=
  ⟨"createSession", "POST", fun _ => ["sessions"], ResponseShape.sessionDetail⟩

/-- `ApiClient.getSession`. -/
def getSessionOp : ClientOp :=
  ⟨"getSession", "GET", fun id => ["sessions", id], ResponseShape.sessionDetail⟩

/-- `ApiClient.uploadPages`. -/
def uploadPagesOp : ClientOp :=
  ⟨"uploadPages", "POST", fun id => ["sessions", id, "pages"], ResponseShape.sessionDetail⟩

/-- `ApiClient.recognize`. -/
def recognizeOp : ClientOp :=
  ⟨"recognize", "POST", fun id => ["sessions", id, "recognize"], ResponseShape.taskIdObject⟩

/-- `ApiClient.exportDocument`. -/
def exportDocumentOp : ClientOp :=
  ⟨"exportDocument", "POST", fun id => ["sessions", id, "export"], ResponseShape.binaryArtifact⟩

/-- `createEventStream`: the EventSource subscription exported next to
`ApiClient`. -/
def createEventStreamOp : ClientOp :=
  ⟨"createEventStream", "GET", fun id => ["sessions", id, "events"], ResponseShape.eventStream⟩

/-- The full client surface exported by `api.ts`. -/
def apiClientOps : List ClientOp :=
  [listSessionsOp, createSessionOp, getSessionOp, uploadPagesOp,
   recognizeOp, exportDocumentOp, createEventStreamOp]

/-! ## Export formats and the export filename computation -/

/-- The format union type accepted by `ApiClient.exportDocument`. -/
inductive ExportFormat where
  | docx
  | pdf
  | markdown
  deriving DecidableEq, Repr

/-- Every inhabitant of the format union. -/
def allExportFormats : List ExportFormat :=
  [ExportFormat.docx, ExportFormat.pdf, ExportFormat.markdown]

/-- The wire value each format variant stands for (the TypeScript union is a
union of these string literals, sent verbatim in the request body). -/
def exportFormatValue : ExportFormat → String
  | ExportFormat.docx => "docx"
  | ExportFormat.pdf => "pdf"
  | ExportFormat.markdown => "markdown"

/-- Whether a character is matched by the dot of a JavaScript regular
expression (everything except line terminators). -/
def jsDotChar (c : Char) : Bool :=
  c ≠ '\n' && c ≠ '\r' && c ≠ '\u2028' && c ≠ '\u2029'

/-- The maximal run a greedy `.+` consumes from the front of `cs`. -/
def dotRun (cs : List Char) : List Char :=
  cs.takeWhile jsDotChar

/-- What the capture group of the `api.ts` filename pattern grabs once the
literal `filename=` has been consumed: an optional opening quote, then a
greedy `.+`, then an optional closing quote.  Because the `.+` is greedy and
the closing quote is optional, the capture runs to the end of the line and a
closing quote present in the header is kept inside the capture. -/
def captureAfterKey (cs : List Char) : Option (List Char) :=
  match cs with
  | '"' :: rest =>
      if (dotRun rest).isEmpty then some ['"'] else some (dotRun rest)
  | _ =>
      if (dotRun cs).isEmpty then none else some (dotRun cs)

/-- The nine characters of the literal `filename=`. -/
def filenameKey : List Char :=
  String.toList ("filename=")

/-- Case-insensitive scan for the first position where the whole filename
pattern of `api.ts` matches, yielding its capture group. -/
def scanForFilename : List Char → Option (List Char)
  | [] => none
  | c :: rest =>
      if filenameKey.isPrefixOf ((c :: rest).map Char.toLower) then
        match captureAfterKey ((c :: rest).drop filenameKey.length) with
        | some cap => some cap
        | none => scanForFilename rest
      else scanForFilename rest

/-- `disposition.match` against the filename pattern in
`ApiClient.exportDocument`, yielding the capture group when the pattern
matches. -/
def dispositionFilename (disposition : String) : Option String :=
  (scanForFilename disposition.toList).map List.asString

/-- The fallback filename `ApiClient.exportDocument` builds when the header
yields no capture: the literal `document.` followed by `md` for markdown and
by the format value otherwise. -/
def exportFallbackName (format : ExportFormat) : String :=
  "document." ++ (match format with
    | ExportFormat.markdown => "md"
    | f => exportFormatValue f)

/-- The filename `ApiClient.exportDocument` returns alongside the blob: the
capture from the `Content-Disposition` header (absent header read as the empty
string), else the fallback name. -/
def exportFilename (dispositionHeader : Option String) (format : ExportFormat) : String :=
  match dispositionFilename (dispositionHeader.getD "") with
  | some n => n
  | none => exportFallbackName format

/-! ## The renderer event log (`App.tsx`) -/

/-- One entry of the renderer event log. -/
structure LogEntry where
  ts : String
  message : String
  deriving DecidableEq, Repr

/-- The `onmessage` handler of the event stream in `App.tsx`: the new entry is
prepended and only the first fifty previous entries are kept. -/
def logEventStep (entry : LogEntry) (prev : List LogEntry) : List LogEntry :=
  entry :: prev.take 50

/-! ## Backend error taxonomy (spec section 7) -/

/-- Modelled from the spec: the backend error taxonomy (`ValidationError`,
`NotFound`, `Conflict`, engine and export failures); the backend sources are
not in the repository snapshot. -/
inductive CoreError where
  | validation (msg : String)
  | notFound
  | conflict
  | engine (msg : String)
  | exportErr (msg : String)
  deriving DecidableEq, Repr

/-! ## Document-model validation (spec section 4.1) -/

/-- Modelled from the spec: the Document Model constructor for a Span — the
backend document-model sources are not in the repository snapshot.  Building a
Span fails with a `ValidationError` when the bounding box is degenerate
(negative width or height) or the confidence lies outside `[0,1]`. -/
def mkTextSpan (text : String) (confidence : Rat) (bbox : BBox) :
    Except CoreError TextSpan :=
  if bbox.w < 0 ∨ bbox.h < 0 then
    Except.error (CoreError.validation ("degenerate bounding box"))
  else if confidence < 0 ∨ 1 < confidence then
    Except.error (CoreError.validation ("confidence outside the unit interval"))
  else
    Except.ok ⟨text, confidence, bbox⟩

/-- Modelled from the spec: the Document Model constructor for a Block — the
backend document-model sources are not in the repository snapshot.  Building a
Block fails with a `ValidationError` when its bounding box is degenerate or
any of its spans carries a degenerate box or an out-of-range confidence. -/
def mkDocumentBlock (id type : String) (bbox : BBox) (spans : List TextSpan) :
    Except CoreError DocumentBlock :=
  if bbox.w < 0 ∨ bbox.h < 0 then
    Except.error (CoreError.validation ("degenerate bounding box"))
  else if spans.any (fun sp =>
      sp.bbox.w < 0 || sp.bbox.h < 0 || sp.confidence < 0 || 1 < sp.confidence) then
    Except.error (CoreError.validation ("invalid span"))
  else
    Except.ok ⟨id, type, bbox, spans⟩

/-! ## Recognition pipeline state machine (spec sections 3, 4.3, 8) -/

/-- Modelled from the spec: the ephemeral record of one recognition run — the
backend pipeline sources are not in the repository snapshot. -/
structure RunRecord where
  runId : Nat
  cancelled : Bool
  deriving DecidableEq, Repr

/-- Modelled from the spec: the per-session state the pipeline and the session
store maintain — the backend sources are not in the repository snapshot.
`prevStatus` remembers the pre-run status a cancellation restores; `runs`
holds the active (queued or running) run records of the session. -/
structure PipelineSession where
  status : SessionStatus
  prevStatus : SessionStatus
  pageCount : Nat
  runs : List RunRecord
  document : Option Document
  lastError : Option String
  deriving Repr

/-- Modelled from the spec: a freshly created session — `status = draft`,
empty page list, no document, no active run. -/
def initSession : PipelineSession :=
  ⟨SessionStatus.draft, SessionStatus.draft, 0, [], none, none⟩

/-- Modelled from the spec: `start(sessionId, options)`.  Requesting
recognition while a run is active fails with `Conflict`; a session with zero
pages fails with `ValidationError` and its status is unchanged; otherwise the
session moves to `processing`, remembers its pre-run status, and exactly one
fresh active run record is created. -/
def pipeStart (rid : Nat) (s : PipelineSession) : Except CoreError PipelineSession :=
  if s.runs ≠ [] then
    Except.error CoreError.conflict
  else if s.pageCount = 0 then
    Except.error (CoreError.validation ("session has no pages"))
  else
    Except.ok { s with
      status := SessionStatus.processing
      prevStatus := s.status
      runs := [⟨rid, false⟩] }

/-- Modelled from the spec: `cancel(sessionId)`.  Cancelling with no active
run is a no-op; otherwise the pipeline observes the flag, discards the run and
restores the pre-run status. -/
def pipeCancel (s : PipelineSession) : PipelineSession :=
  if s.runs = [] then s
  else { s with status := s.prevStatus, runs := [] }

/-- Modelled from the spec: a successful run commits its Document through
`SessionStore.setDocument` — status becomes `ready`, the error is cleared and
the run record is discarded.  Without an active run there is nothing to
commit. -/
def pipeComplete (doc : Document) (s : PipelineSession) : PipelineSession :=
  if s.runs = [] then s
  else { s with
    status := SessionStatus.ready
    runs := []
    document := some doc
    lastError := none }

/-- Modelled from the spec: a failed run calls `SessionStore.setError` —
status becomes `error`, the message is recorded, any previously recognized
Document is left untouched and the run record is discarded. -/
def pipeFail (msg : String) (s : PipelineSession) : PipelineSession :=
  if s.runs = [] then s
  else { s with
    status := SessionStatus.error
    runs := []
    lastError := some msg }

/-- Modelled from the spec: adding pages appends to the session's page list
(its count here), independent of any run. -/
def pipeAddPages (n : Nat) (s : PipelineSession) : PipelineSession :=
  { s with pageCount := s.pageCount + n }

/-- The transitions a session can undergo around recognition. -/
inductive PipeEvent where
  | start (rid : Nat)
  | cancel
  | complete (doc : Document)
  | fail (msg : String)
  | addPages (n : Nat)

/-- One transition of the pipeline state machine; a rejected `start` (conflict
or validation failure) leaves the session unchanged. -/
def pipeStep : PipeEvent → PipelineSession → PipelineSession
  | PipeEvent.start rid, s =>
      match pipeStart rid s with
      | Except.ok s' => s'
      | Except.error _ => s
  | PipeEvent.cancel, s => pipeCancel s
  | PipeEvent.complete d, s => pipeComplete d s
  | PipeEvent.fail m, s => pipeFail m s
  | PipeEvent.addPages n, s => pipeAddPages n s

/-- The states reachable from a freshly created session. -/
inductive PipeReachable : PipelineSession → Prop where
  | init : PipeReachable initSession
  | step (e : PipeEvent) {s : PipelineSession} :
      PipeReachable s → PipeReachable (pipeStep e s)

/-! ## The session archive (spec sections 4.2 and 6) -/

/-- A JSON value, the payload of the archive's `session.json`. -/
inductive Json where
  | null
  | bool (b : Bool)
  | num (q : Rat)
  | str (s : String)
  | arr (items : List Json)
  | obj (fields : List (String × Json))
  deriving Repr

/-- Read a JSON number as a natural. -/
def Json.asNat? : Json → Option Nat
  | Json.num q => if q.den = 1 ∧ 0 ≤ q.num then some q.num.toNat else none
  | _ => none

/-- A nullable string field. -/
def encodeOptStr : Option String → Json
  | none => Json.null
  | some s => Json.str s

/-- Read a nullable string field back. -/
def decodeOptStr : Json → Option (Option String)
  | Json.null => some none
  | Json.str s => some (some s)
  | _ => none

/-- A nullable number field. -/
def encodeOptRat : Option Rat → Json
  | none => Json.null
  | some q => Json.num q

/-- Read a nullable number field back. -/
def decodeOptRat : Json → Option (Option Rat)
  | Json.null => some none
  | Json.num q => some (some q)
  | _ => none

/-- The wire value of a session status. -/
def statusString : SessionStatus → String
  | SessionStatus.draft => "draft"
  | SessionStatus.processing => "processing"
  | SessionStatus.ready => "ready"
  | SessionStatus.error => "error"

/-- Parse a session status wire value. -/
def parseStatus (s : String) : Option SessionStatus :=
  if s = "draft" then some SessionStatus.draft
  else if s = "processing" then some SessionStatus.processing
  else if s = "ready" then some SessionStatus.ready
  else if s = "error" then some SessionStatus.error
  else none

/-- Decode every element of a JSON array, failing if any element fails. -/
def decodeList (dec : Json → Option α) : List Json → Option (List α)
  | [] => some []
  | j :: rest => do
      let x ← dec j
      let xs ← decodeList dec rest
      some (x :: xs)

/-- A bounding box serializes as the four-number array of `types.ts`. -/
def encodeBBox (b : BBox) : Json :=
  Json.arr [Json.num b.x, Json.num b.y, Json.num b.w, Json.num b.h]

/-- Parse a bounding box array. -/
def decodeBBox : Json → Option BBox
  | Json.arr [Json.num x, Json.num y, Json.num w, Json.num h] => some ⟨x, y, w, h⟩
  | _ => none

/-- Modelled from the spec: serialization of a Span into the archive's
`session.json` (the backend archive sources are not in the repository
snapshot); field layout follows `types.ts`. -/
def encodeSpan (sp : TextSpan) : Json :=
  Json.obj [("text", Json.str sp.text),
            ("confidence", Json.num sp.confidence),
            ("bbox", encodeBBox sp.bbox)]

/-- Parse one serialized Span. -/
def decodeSpan : Json → Option TextSpan
  | Json.obj [("text", Json.str text),
              ("confidence", Json.num conf),
              ("bbox", jb)] => do
      let bb ← decodeBBox jb
      some ⟨text, conf, bb⟩
  | _ => none

/-- Modelled from the spec: serialization of a Block. -/
def encodeBlock (b : DocumentBlock) : Json :=
  Json.obj [("id", Json.str b.id),
            ("type", Json.str b.type),
            ("bbox", encodeBBox b.bbox),
            ("spans", Json.arr (b.spans.map encodeSpan))]

/-- Parse one serialized Block. -/
def decodeBlock : Json → Option DocumentBlock
  | Json.obj [("id", Json.str id),
              ("type", Json.str type),
              ("bbox", jb),
              ("spans", Json.arr js)] => do
      let bb ← decodeBBox jb
      let spans ← decodeList decodeSpan js
      some ⟨id, type, bb, spans⟩
  | _ => none

/-- Modelled from the spec: serialization of a content Page. -/
def encodePage (p : DocumentPage) : Json :=
  Json.obj [("index", Json.num (p.index : Rat)),
            ("width", Json.num p.width),
            ("height", Json.num p.height),
            ("blocks", Json.arr (p.blocks.map encodeBlock))]

/-- Parse one serialized content Page. -/
def decodePage : Json → Option DocumentPage
  | Json.obj [("index", jn),
              ("width", Json.num w),
              ("height", Json.num h),
              ("blocks", Json.arr js)] => do
      let idx ← jn.asNat?
      let blocks ← decodeList decodeBlock js
      some ⟨idx, w, h, blocks⟩
  | _ => none

/-- Modelled from the spec: serialization of a Document. -/
def encodeDocument (d : Document) : Json :=
  Json.obj [("created_at", Json.str d.created_at),
            ("language_hint", Json.str d.language_hint),
            ("pages", Json.arr (d.pages.map encodePage))]

/-- Parse one serialized Document. -/
def decodeDocument : Json → Option Document
  | Json.obj [("created_at", Json.str c),
              ("language_hint", Json.str l),
              ("pages", Json.arr js)] => do
      let pages ← decodeList decodePage js
      some ⟨c, l, pages⟩
  | _ => none

/-- A nullable Document field. -/
def encodeOptDocument : Option Document → Json
  | none => Json.null
  | some d => encodeDocument d

/-- Read a nullable Document field back. -/
def decodeOptDocument : Json → Option (Option Document)
  | Json.null => some none
  | j => (decodeDocument j).map some

/-- Modelled from the spec: serialization of one session Page record. -/
def encodeSessionPage (p : SessionPage) : Json :=
  Json.obj [("id", Json.str p.id),
            ("index", Json.num (p.index : Rat)),
            ("filename", Json.str p.filename),
            ("original_name", Json.str p.original_name),
            ("source_type", Json.str p.source_type),
            ("metadata", Json.obj [("width", encodeOptRat p.meta_width),
                                   ("height", encodeOptRat p.meta_height)])]

/-- Parse one serialized session Page record. -/
def decodeSessionPage : Json → Option SessionPage
  | Json.obj [("id", Json.str id),
              ("index", jn),
              ("filename", Json.str fn),
              ("original_name", Json.str origName),
              ("source_type", Json.str st),
              ("metadata", Json.obj [("width", jw), ("height", jh)])] => do
      let idx ← jn.asNat?
      let w ← decodeOptRat jw
      let h ← decodeOptRat jh
      some ⟨id, idx, fn, origName, st, w, h⟩
  | _ => none

/-- Modelled from the spec: the `session.json` payload of the archive — the
session's metadata, its page records and its Document. -/
def encodeSessionDetail (s : SessionDetail) : Json :=
  Json.obj [("id", Json.str s.id),
            ("name", Json.str s.name),
            ("description", encodeOptStr s.description),
            ("created_at", Json.str s.created_at),
            ("updated_at", Json.str s.updated_at),
            ("page_count", Json.num (s.page_count : Rat)),
            ("status", Json.str (statusString s.status)),
            ("autosave_enabled", Json.bool s.autosave_enabled),
            ("pages", Json.arr (s.pages.map encodeSessionPage)),
            ("document", encodeOptDocument s.document),
            ("last_recognized_at", encodeOptStr s.last_recognized_at),
            ("last_error", encodeOptStr s.last_error)]

/-- Parse a `session.json` payload. -/
def decodeSessionDetail : Json → Option SessionDetail
  | Json.obj [("id", Json.str id),
              ("name", Json.str name),
              ("description", jd),
              ("created_at", Json.str ca),
              ("updated_at", Json.str ua),
              ("page_count", jpc),
              ("status", Json.str st),
              ("autosave_enabled", Json.bool auto),
              ("pages", Json.arr jpages),
              ("document", jdoc),
              ("last_recognized_at", jlr),
              ("last_error", jle)] => do
      let desc ← decodeOptStr jd
      let pc ← jpc.asNat?
      let status ← parseStatus st
      let pages ← decodeList decodeSessionPage jpages
      let doc ← decodeOptDocument jdoc
      let lr ← decodeOptStr jlr
      let le ← decodeOptStr jle
      some ⟨id, name, desc, ca, ua, pc, status, auto, pages, doc, lr, le⟩
  | _ => none

/-- One entry of the single-file archive container: the `session.json`
metadata document or a stored page image file. -/
inductive ArchiveEntry where
  | jsonEntry (path : String) (content : Json)
  | fileEntry (path : String) (bytes : List Nat)
  deriving Repr

/-- Modelled from the spec: `.reflow-session` archive export — a container
holding `session.json` followed by the stored page image files, in page-index
order (`files` holds the stored bytes of the session's pages, positionally).
The backend archive sources are not in the repository snapshot. -/
def exportArchive (s : SessionDetail) (files : List (List Nat)) : List ArchiveEntry :=
  ArchiveEntry.jsonEntry ("session.json") (encodeSessionDetail s)
    :: (s.pages.zip files).map (fun pf => ArchiveEntry.fileEntry ("pages/" ++ pf.1.filename) pf.2)

/-- Collect the page files of an archive body, in order. -/
def entriesBytes : List ArchiveEntry → Option (List (List Nat))
  | [] => some []
  | ArchiveEntry.fileEntry _ b :: rest => (entriesBytes rest).map (b :: ·)
  | ArchiveEntry.jsonEntry _ _ :: _ => none

/-- Modelled from the spec: `.reflow-session` archive import — reads back the
session record and the stored page files, requiring one stored file per page
record. -/
def importArchive : List ArchiveEntry → Option (SessionDetail × List (List Nat))
  | ArchiveEntry.jsonEntry p j :: rest =>
      if p = "session.json" then do
        let s ← decodeSessionDetail j
        let files ← entriesBytes rest
        if files.length = s.pages.length then some (s, files) else none
      else none
  | _ => none

/-! ## Auxiliary definitions for the statements below -/

/-- The inductive invariant of the pipeline state machine: the session is
`processing` exactly when one active run record exists, at most one run is
ever active, and the remembered pre-run status is never `processing`. -/
def runInvariant (s : PipelineSession) : Prop :=
  (s.status = SessionStatus.processing ↔ s.runs.length = 1) ∧
  s.runs.length ≤ 1 ∧
  s.prevStatus ≠ SessionStatus.processing

/-- A concrete recognized document, used to exercise the archive round
trip. -/
def sampleDocument : Document :=
  ⟨"2024-01-01T00:00:00Z", "ru",
    [⟨0, 100, 200,
      [⟨"b1", "paragraph", ⟨1, 2, 30, 40⟩,
        [⟨"hello", 9/10, ⟨1, 2, 10, 5⟩⟩]⟩]⟩]⟩

/-- A concrete session with one page and a recognized document. -/
def sampleSession : SessionDetail :=
  ⟨"s1", "Invoice", some ("demo"), "2024-01-01", "2024-01-02", 1,
    SessionStatus.ready, true,
    [⟨"p1", 0, "p1.png", "scan.png", "upload", some 100, some 200⟩],
    some sampleDocument, some ("2024-01-02"), none⟩

/-- The stored image bytes of the sample session's single page. -/
def sampleFiles : List (List Nat) := [[137, 80, 78, 71]]

/-! ## Round-trip lemmas for the archive codec -/

theorem decodeSpan_encodeSpan (sp : TextSpan) : decodeSpan (encodeSpan sp) = some sp := rfl

theorem decodeList_map_eq (dec : Json → Option α) (enc : α → Json)
    (h : ∀ x, dec (enc x) = some x) :
    ∀ xs : List α, decodeList dec (xs.map enc) = some xs
  | [] => rfl
  | x :: xs => by
      simp [List.map, decodeList, h x, decodeList_map_eq dec enc h xs]

theorem decodeBlock_encodeBlock (b : DocumentBlock) : decodeBlock (encodeBlock b) = some b := by
  obtain ⟨id, ty, bb, spans⟩ := b
  have h1 : decodeBlock (encodeBlock ⟨id, ty, bb, spans⟩)
      = (decodeList decodeSpan (spans.map encodeSpan)).bind
          (fun sps => some ⟨id, ty, bb, sps⟩) := rfl
  rw [h1, decodeList_map_eq decodeSpan encodeSpan decodeSpan_encodeSpan spans]
  rfl

theorem decodePage_encodePage (p : DocumentPage) : decodePage (encodePage p) = some p := by
  obtain ⟨idx, w, h, blocks⟩ := p
  have h1 : decodePage (encodePage ⟨idx, w, h, blocks⟩)
      = (decodeList decodeBlock (blocks.map encodeBlock)).bind
          (fun bs => some ⟨idx, w, h, bs⟩) := rfl
  rw [h1, decodeList_map_eq decodeBlock encodeBlock decodeBlock_encodeBlock blocks]
  rfl

theorem decodeDocument_encodeDocument (d : Document) :
    decodeDocument (encodeDocument d) = some d := by
  obtain ⟨c, l, pages⟩ := d
  have h1 : decodeDocument (encodeDocument ⟨c, l, pages⟩)
      = (decodeList decodePage (pages.map encodePage)).bind
          (fun ps => some ⟨c, l, ps⟩) := rfl
  rw [h1, decodeList_map_eq decodePage encodePage decodePage_encodePage pages]
  rfl

theorem decodeOptDocument_encodeOptDocument (o : Option Document) :
    decodeOptDocument (encodeOptDocument o) = some o := by
  cases o with
  | none => rfl
  | some d =>
      have h1 : decodeOptDocument (encodeOptDocument (some d))
          = (decodeDocument (encodeDocument d)).map some := rfl
      rw [h1, decodeDocument_encodeDocument]
      rfl

theorem decodeOptStr_encodeOptStr (o : Option String) :
    decodeOptStr (encodeOptStr o) = some o := by
  cases o <;> rfl

theorem decodeOptRat_encodeOptRat (o : Option Rat) :
    decodeOptRat (encodeOptRat o) = some o := by
  cases o <;> rfl

theorem parseStatus_statusString (st : SessionStatus) :
    parseStatus (statusString st) = some st := by
  cases st <;> rfl

theorem decodeSessionPage_encodeSessionPage (p : SessionPage) :
    decodeSessionPage (encodeSessionPage p) = some p := by
  obtain ⟨id, idx, fn, origName, st, mw, mh⟩ := p
  have h1 : decodeSessionPage (encodeSessionPage ⟨id, idx, fn, origName, st, mw, mh⟩)
      = (decodeOptRat (encodeOptRat mw)).bind (fun w =>
          (decodeOptRat (encodeOptRat mh)).bind (fun hh =>
            some ⟨id, idx, fn, origName, st, w, hh⟩)) := rfl
  rw [h1, decodeOptRat_encodeOptRat mw, decodeOptRat_encodeOptRat mh]
  rfl

theorem decodeSessionDetail_encodeSessionDetail (s : SessionDetail) :
    decodeSessionDetail (encodeSessionDetail s) = some s := by
  obtain ⟨id, name, desc, ca, ua, pc, st, auto, pages, doc, lr, le⟩ := s
  have h1 : decodeSessionDetail
        (encodeSessionDetail ⟨id, name, desc, ca, ua, pc, st, auto, pages, doc, lr, le⟩)
      = (decodeOptStr (encodeOptStr desc)).bind (fun d =>
          (parseStatus (statusString st)).bind (fun st2 =>
            (decodeList decodeSessionPage (pages.map encodeSessionPage)).bind (fun ps =>
              (decodeOptDocument (encodeOptDocument doc)).bind (fun dc =>
                (decodeOptStr (encodeOptStr lr)).bind (fun l1 =>
                  (decodeOptStr (encodeOptStr le)).bind (fun l2 =>
                    some ⟨id, name, d, ca, ua, pc, st2, auto, ps, dc, l1, l2⟩)))))) := rfl
  rw [h1, decodeOptStr_encodeOptStr desc, parseStatus_statusString st,
      decodeList_map_eq decodeSessionPage encodeSessionPage
        decodeSessionPage_encodeSessionPage pages,
      decodeOptDocument_encodeOptDocument doc, decodeOptStr_encodeOptStr lr,
      decodeOptStr_encodeOptStr le]
  rfl

theorem entriesBytes_map_fileEntry :
    ∀ ps : List (SessionPage × List Nat),
      entriesBytes (ps.map (fun pf => ArchiveEntry.fileEntry ("pages/" ++ pf.1.filename) pf.2))
        = some (ps.map Prod.snd)
  | [] => rfl
  | p :: ps => by
      simp [entriesBytes, entriesBytes_map_fileEntry ps]

/-! ## Invariant lemmas for the pipeline state machine -/

theorem runInvariant_init : runInvariant initSession := by
  refine ⟨⟨fun h => ?_, fun h => ?_⟩, ?_, ?_⟩ <;> simp_all [initSession, runInvariant]

theorem runInvariant_step (e : PipeEvent) (s : PipelineSession) (h : runInvariant s) :
    runInvariant (pipeStep e s) := by
  obtain ⟨h1, h2, h3⟩ := h
  cases e with
  | start rid =>
      by_cases hr : s.runs = []
      · by_cases hp : s.pageCount = 0
        · have heq : pipeStep (PipeEvent.start rid) s = s := by
            simp [pipeStep, pipeStart, hr, hp]
          rw [heq]; exact ⟨h1, h2, h3⟩
        · have hs : s.status ≠ SessionStatus.processing := by
            intro hps
            have hlen := h1.mp hps
            rw [hr] at hlen
            simp at hlen
          have heq : pipeStep (PipeEvent.start rid) s
              = { s with status := SessionStatus.processing,
                         prevStatus := s.status,
                         runs := [⟨rid, false⟩] } := by
            simp [pipeStep, pipeStart, hr, hp]
          rw [heq]
          exact ⟨by simp, by simp, by simpa using hs⟩
      · have heq : pipeStep (PipeEvent.start rid) s = s := by
          simp [pipeStep, pipeStart, hr]
        rw [heq]; exact ⟨h1, h2, h3⟩
  | cancel =>
      by_cases hr : s.runs = []
      · have heq : pipeStep PipeEvent.cancel s = s := by
          simp [pipeStep, pipeCancel, hr]
        rw [heq]; exact ⟨h1, h2, h3⟩
      · have heq : pipeStep PipeEvent.cancel s
            = { s with status := s.prevStatus, runs := [] } := by
          simp [pipeStep, pipeCancel, hr]
        rw [heq]
        exact ⟨by simp [h3], by simp, by simpa using h3⟩
  | complete d =>
      by_cases hr : s.runs = []
      · have heq : pipeStep (PipeEvent.complete d) s = s := by
          simp [pipeStep, pipeComplete, hr]
        rw [heq]; exact ⟨h1, h2, h3⟩
      · have heq : pipeStep (PipeEvent.complete d) s
            = { s with status := SessionStatus.ready, runs := [],
                       document := some d, lastError := none } := by
          simp [pipeStep, pipeComplete, hr]
        rw [heq]
        exact ⟨by simp, by simp, by simpa using h3⟩
  | fail m =>
      by_cases hr : s.runs = []
      · have heq : pipeStep (PipeEvent.fail m) s = s := by
          simp [pipeStep, pipeFail, hr]
        rw [heq]; exact ⟨h1, h2, h3⟩
      · have heq : pipeStep (PipeEvent.fail m) s
            = { s with status := SessionStatus.error, runs := [],
                       lastError := some m } := by
          simp [pipeStep, pipeFail, hr]
        rw [heq]
        exact ⟨by simp, by simp, by simpa using h3⟩
  | addPages n =>
      exact ⟨h1, h2, h3⟩

theorem runInvariant_reachable (s : PipelineSession) (h : PipeReachable s) :
    runInvariant s := by
  induction h with
  | init => exact runInvariant_init
  | step e hs ih => exact runInvariant_step e _ ih

/-! ## Helper for the renderer log bound -/

theorem logEventStep_foldl_le :
    ∀ (events : List LogEntry) (acc : List LogEntry), acc.length ≤ 51 →
      (events.foldl (fun l e => logEventStep e l) acc).length ≤ 51
  | [], _, h => h
  | e :: es, acc, _ => by
      refine logEventStep_foldl_le es (logEventStep e acc) ?_
      simp only [logEventStep, List.length_cons, List.length_take]
      omega

/-! ## The claims -/

/-- C1, counterexample: the recognize operation's declared response object has
no field named `runId` — its only top-level field is `taskId`. -/
theorem C1_counterexample :
    ("runId" ∉ responseTopLevelFields recognizeOp.response) ∧
    responseTopLevelFields recognizeOp.response = ["taskId"] := by
  decide

/-- C1 (amended): the recognize operation is a POST to
`/sessions/<id>/recognize` that returns immediately with the bare
run-identifier object, whose field is named `taskId` — not a session or
document snapshot. -/
theorem C1_recognize_returns_task_id (id : String) :
    recognizeOp.method = "POST" ∧
    recognizeOp.pathSegments id = ["sessions", id, "recognize"] ∧
    responseTopLevelFields recognizeOp.response = ["taskId"] ∧
    recognizeOp.response ≠ ResponseShape.sessionDetail :=
  ⟨rfl, rfl, rfl, by decide⟩

/-- C2, counterexample: the client surface consists of exactly seven
operations — no delete-session, remove-page or cancel operation exists: no
operation sends DELETE and none addresses a `cancel` path. -/
theorem C2_counterexample :
    apiClientOps.map ClientOp.opName
      = ["listSessions", "createSession", "getSession", "uploadPages",
         "recognize", "exportDocument", "createEventStream"] ∧
    (apiClientOps.all (fun op => op.method != "DELETE"
        && !((op.pathSegments ("s1")).contains ("cancel")))) = true := by
  decide

/-- C2 (amended): the client boundary exposes create/list/get session, add
pages, start recognition, subscribe to events and export document — and
nothing else (no delete session, no remove page, no cancel). -/
theorem C2_client_operations (id : String) :
    listSessionsOp.method = "GET" ∧ listSessionsOp.pathSegments id = ["sessions"] ∧
    createSessionOp.method = "POST" ∧ createSessionOp.pathSegments id = ["sessions"] ∧
    getSessionOp.method = "GET" ∧ getSessionOp.pathSegments id = ["sessions", id] ∧
    uploadPagesOp.method = "POST" ∧ uploadPagesOp.pathSegments id = ["sessions", id, "pages"] ∧
    recognizeOp.pathSegments id = ["sessions", id, "recognize"] ∧
    exportDocumentOp.pathSegments id = ["sessions", id, "export"] ∧
    createEventStreamOp.pathSegments id = ["sessions", id, "events"] ∧
    apiClientOps.length = 7 :=
  ⟨rfl, rfl, rfl, rfl, rfl, rfl, rfl, rfl, rfl, rfl, rfl, rfl⟩

/-- C3: on every reachable pipeline state the session status is `processing`
exactly when one active run record exists, at most one run is ever active,
and the equivalence is preserved by every further transition. -/
theorem C3_processing_iff_active_run (s : PipelineSession) (h : PipeReachable s)
    (e : PipeEvent) :
    (s.status = SessionStatus.processing ↔ s.runs.length = 1) ∧
    s.runs.length ≤ 1 ∧
    ((pipeStep e s).status = SessionStatus.processing ↔ (pipeStep e s).runs.length = 1) := by
  have hs := runInvariant_reachable s h
  have hs2 := runInvariant_step e s hs
  exact ⟨hs.1, hs.2.1, hs2.1⟩

/-- C3, witness: the invariant instantiated at the freshly created session
and a cancel transition. -/
theorem C3_witness :
    PipeReachable initSession ∧
    ((initSession.status = SessionStatus.processing ↔ initSession.runs.length = 1) ∧
     initSession.runs.length ≤ 1 ∧
     ((pipeStep PipeEvent.cancel initSession).status = SessionStatus.processing ↔
       (pipeStep PipeEvent.cancel initSession).runs.length = 1)) :=
  ⟨PipeReachable.init,
   C3_processing_iff_active_run initSession PipeReachable.init PipeEvent.cancel⟩

/-- C4: exporting a session to the archive container and importing it back
reproduces the session record — page order, page metadata, Document content
and session metadata — together with the stored page files. -/
theorem C4_archive_roundtrip (s : SessionDetail) (files : List (List Nat))
    (h : files.length = s.pages.length) :
    importArchive (exportArchive s files) = some (s, files) := by
  have hz : entriesBytes ((s.pages.zip files).map
        (fun pf => ArchiveEntry.fileEntry ("pages/" ++ pf.1.filename) pf.2))
      = some files := by
    rw [entriesBytes_map_fileEntry, List.map_snd_zip]
    exact le_of_eq h
  have h1 : importArchive (exportArchive s files)
      = (decodeSessionDetail (encodeSessionDetail s)).bind (fun t =>
          (entriesBytes ((s.pages.zip files).map
              (fun pf => ArchiveEntry.fileEntry ("pages/" ++ pf.1.filename) pf.2))).bind
            (fun fs => if fs.length = t.pages.length then some (t, fs) else none)) := rfl
  rw [h1, decodeSessionDetail_encodeSessionDetail, hz]
  simp [h]

/-- C4, witness: the round trip at a concrete one-page session carrying a
recognized document. -/
theorem C4_witness :
    sampleFiles.length = sampleSession.pages.length ∧
    importArchive (exportArchive sampleSession sampleFiles)
      = some (sampleSession, sampleFiles) :=
  ⟨rfl, C4_archive_roundtrip sampleSession sampleFiles rfl⟩

/-- C5, counterexample: `document` is not one of the format values of the
export interface; the accepted values are `docx`, `pdf` and `markdown`. -/
theorem C5_counterexample :
    ("document" ∉ allExportFormats.map exportFormatValue) ∧
    allExportFormats.map exportFormatValue = ["docx", "pdf", "markdown"] := by
  decide

/-- C5 (amended): the export interface accepts exactly the formats
`docx`, `pdf` and `markdown`. -/
theorem C5_export_formats :
    allExportFormats.map exportFormatValue = ["docx", "pdf", "markdown"] ∧
    ∀ f : ExportFormat, f ∈ allExportFormats := by
  refine ⟨rfl, fun f => ?_⟩
  cases f <;> simp [allExportFormats]

/-- C6: with a quoted filename in the `Content-Disposition` header — the
usual server form — the greedy capture keeps the closing quote, so a markdown
export yields a filename ending in a quote character instead of `.md`; only
the headerless fallback ends in `.md`. -/
theorem C6_filename_trailing_quote :
    exportFilename (some ("attachment; filename=\"Invoice.md\"")) ExportFormat.markdown
        = "Invoice.md\"" ∧
    ((String.toList (".md")).isSuffixOf (String.toList ("Invoice.md\""))) = false ∧
    exportFilename none ExportFormat.markdown = "document.md" := by
  decide

/-- C7, counterexample: starting recognition does not return a
Session/Document snapshot — its response carries only the `taskId` field —
and no remove-page operation exists on the client at all. -/
theorem C7_counterexample :
    recognizeOp.response ≠ ResponseShape.sessionDetail ∧
    responseTopLevelFields recognizeOp.response = ["taskId"] ∧
    ("removePage" ∉ apiClientOps.map ClientOp.opName) ∧
    ("deleteSession" ∉ apiClientOps.map ClientOp.opName) := by
  decide

/-- C7 (amended): create session and add pages return the updated
SessionDetail snapshot; start recognition returns only the task-identifier
object, so the renderer re-fetches session state afterwards. -/
theorem C7_mutating_responses :
    createSessionOp.response = ResponseShape.sessionDetail ∧
    uploadPagesOp.response = ResponseShape.sessionDetail ∧
    recognizeOp.response = ResponseShape.taskIdObject ∧
    responseTopLevelFields recognizeOp.response = ["taskId"] :=
  ⟨rfl, rfl, rfl, rfl⟩

/-- C8: building a Span fails with a ValidationError exactly when the box is
degenerate or the confidence is out of range, every successfully built Span
satisfies both bounds, and building a Block on a degenerate box fails with a
ValidationError as well. -/
theorem C8_span_block_validation (text : String) (conf : Rat) (bb : BBox)
    (bid btype : String) (spans : List TextSpan) :
    ((∃ m, mkTextSpan text conf bb = Except.error (CoreError.validation m)) ↔
        (bb.w < 0 ∨ bb.h < 0 ∨ conf < 0 ∨ 1 < conf)) ∧
    (∀ sp, mkTextSpan text conf bb = Except.ok sp →
        0 ≤ sp.confidence ∧ sp.confidence ≤ 1 ∧ 0 ≤ sp.bbox.w ∧ 0 ≤ sp.bbox.h) ∧
    ((bb.w < 0 ∨ bb.h < 0) →
        ∃ m, mkDocumentBlock bid btype bb spans = Except.error (CoreError.validation m)) := by
  refine ⟨?_, ?_, ?_⟩
  · unfold mkTextSpan
    split_ifs with hbox hconf
    · exact ⟨fun _ => by tauto, fun _ => ⟨_, rfl⟩⟩
    · exact ⟨fun _ => by tauto, fun _ => ⟨_, rfl⟩⟩
    · exact ⟨fun ⟨m, hm⟩ => by simp at hm, fun hOr => by tauto⟩
  · intro sp hsp
    unfold mkTextSpan at hsp
    split_ifs at hsp with hbox hconf
    rw [Except.ok.injEq] at hsp
    subst hsp
    push_neg at hbox hconf
    exact ⟨hconf.1, hconf.2, hbox.1, hbox.2⟩
  · intro hbox
    unfold mkDocumentBlock
    rw [if_pos hbox]
    exact ⟨_, rfl⟩

/-- C8, witness: a well-formed span construction succeeds and its bounds hold
at concrete values. -/
theorem C8_witness :
    0 ≤ (TextSpan.mk ("word") 1 ⟨0, 0, 3, 4⟩).confidence ∧
    (TextSpan.mk ("word") 1 ⟨0, 0, 3, 4⟩).confidence ≤ 1 ∧
    0 ≤ (TextSpan.mk ("word") 1 ⟨0, 0, 3, 4⟩).bbox.w ∧
    0 ≤ (TextSpan.mk ("word") 1 ⟨0, 0, 3, 4⟩).bbox.h :=
  (C8_span_block_validation ("word") 1 ⟨0, 0, 3, 4⟩ ("b1") ("paragraph") []).2.1
    ⟨"word", 1, ⟨0, 0, 3, 4⟩⟩ (by decide)

/-- C9, counterexample: a non-ok response with an empty body fails with the
message `HTTP 409`, not with the response body as message. -/
theorem C9_counterexample :
    request ⟨false, 409, ""⟩ = Except.error ("HTTP 409") ∧
    request ⟨false, 409, ""⟩ ≠ Except.error ("") := by
  decide

/-- C9 (amended): every non-ok response makes the client operation fail with
no result value.  For the operations going through the `request` helper the
error message is the response body when that body is non-empty and
`HTTP <status>` otherwise; for `uploadPages` and `exportDocument`, which
bypass the helper, the message is the response body verbatim. -/
theorem C9_non_ok_failure (resp : HttpResponse) (h : resp.ok = false) :
    request resp
      = Except.error (if resp.body = "" then "HTTP " ++ toString resp.status
                      else resp.body) ∧
    directFetch resp = Except.error resp.body := by
  constructor
  · simp [request, h]
  · simp [directFetch, h]

/-- C9, witness: a 409 carrying the body `Conflict` fails with exactly that
message on both client error paths. -/
theorem C9_witness :
    request ⟨false, 409, "Conflict"⟩ = Except.error ("Conflict") ∧
    directFetch ⟨false, 409, "Conflict"⟩ = Except.error ("Conflict") := by
  have h := C9_non_ok_failure ⟨false, 409, "Conflict"⟩ rfl
  exact ⟨h.1.trans (by decide), h.2⟩

/-- C10: after any received event the renderer log holds at most 51 entries,
the newest entry first, the previous entries truncated to their newest fifty;
folding any further stream of events keeps the bound. -/
theorem C10_event_log_bounded (e : LogEntry) (prev : List LogEntry)
    (events : List LogEntry) :
    (logEventStep e prev).length ≤ 51 ∧
    (logEventStep e prev).head? = some e ∧
    logEventStep e prev = e :: prev.take 50 ∧
    (events.foldl (fun l x => logEventStep x l) (logEventStep e prev)).length ≤ 51 := by
  refine ⟨?_, rfl, rfl, ?_⟩
  · simp only [logEventStep, List.length_cons, List.length_take]
    omega
  · refine logEventStep_foldl_le events (logEventStep e prev) ?_
    simp only [logEventStep, List.length_cons, List.length_take]
    omega

end ReflowOCR
